import Mathlib

/-!
Shallow embedding of the snake-game core from `src/app/snake/page.tsx`.

The game logic lives in a handful of closures over mutable refs
(`snakeRef`, `foodRef`, `directionRef`, `pendingDirectionRef`, `boardRef`,
plus React state `status`, `score`, `highScore`).  We model the refs and
state as one record `GameState` and each closure as a pure state
transformer.  JavaScript `Math.random`-driven sampling is modelled by an
explicit sample stream `rng : Nat → Point`, where `rng n` stands for the
pair `(randomInt board.cols, randomInt board.rows)` drawn on attempt `n`;
range facts about `randomInt` appear as hypotheses.  A thrown exception
(the only possible one: reading `.x` of `undefined` when the snake array
is empty) is modelled by the tick returning outcome `none`, together with
the ref state at the moment of the throw.
-/

namespace SnakeGame

/-- `type Direction = "up" | "down" | "left" | "right"` (page.tsx:5). -/
inductive Direction : Type where
  | up : Direction
  | down : Direction
  | left : Direction
  | right : Direction
deriving DecidableEq, Repr

/-- `type Point = { x: number; y: number }` (page.tsx:7).  Grid coordinates
are integers; they can go negative one step past the wall, so `Int`. -/
structure Point : Type where
  x : Int
  y : Int
deriving DecidableEq, Repr

/-- The game-logic fields of `type Board` (page.tsx:12).  The rendering-only
fields `cell`, `width`, `height`, `dpr` never enter the game logic and are
omitted.  `cols`/`rows` are non-negative integers. -/
structure Board : Type where
  cols : Nat
  rows : Nat
deriving DecidableEq, Repr

/-- `type Status = "ready" | "running" | "gameover"` (page.tsx:21). -/
inductive Status : Type where
  | ready : Status
  | running : Status
  | gameover : Status
deriving DecidableEq, Repr

/-- `directionVectors` (page.tsx:29). -/
def directionVectors : Direction → Point
  | .up => ⟨0, -1⟩
  | .down => ⟨0, 1⟩
  | .left => ⟨-1, 0⟩
  | .right => ⟨1, 0⟩

/-- `opposite` (page.tsx:36). -/
def opposite : Direction → Direction
  | .up => .down
  | .down => .up
  | .left => .right
  | .right => .left

/-- A point lies on the board: `0 ≤ x < cols` and `0 ≤ y < rows`. -/
abbrev inBounds (b : Board) (p : Point) : Prop :=
  0 ≤ p.x ∧ p.x < (b.cols : Int) ∧ 0 ≤ p.y ∧ p.y < (b.rows : Int)

/-- The rejection-sampling loop of `spawnFood` (page.tsx:53-59).
`fuel` counts the remaining attempts (500 at the top call), `attempt` the
index into the sample stream.  The occupancy test
`occupied.has(x-y)` of the source is string-keyed component-wise
equality, which coincides with `Point` equality, hence list membership. -/
def spawnFoodGo (occupied : List Point) (rng : Nat → Point) :
    Nat → Nat → Point
  | _, 0 => ⟨0, 0⟩
  | attempt, fuel + 1 =>
    let p := rng attempt
    if p ∈ occupied then spawnFoodGo occupied rng (attempt + 1) fuel else p

set_option linter.unusedVariables false in
/-- `spawnFood` (page.tsx:51-61): up to 500 uniform samples over the grid,
first free cell wins; fallback `(0,0)` after exhaustion.  `board` bounds
the samples in the source via `randomInt(board.cols)` / `randomInt(board.rows)`;
here the bound is a hypothesis on `rng` where a theorem needs it. -/
def spawnFood (snake : List Point) (board : Board) (rng : Nat → Point) : Point :=
  spawnFoodGo snake rng 0 500

/-- Classification of one `tick` run, per the spec's `TickOutcome` plus
`Noop` for the early return on an unsized board (page.tsx:227). -/
inductive TickOutcome : Type where
  | Noop : TickOutcome
  | Moved : TickOutcome
  | Ate : TickOutcome
  | Died : TickOutcome
deriving DecidableEq, Repr

/-- The mutable refs and React state of `SnakePage` that the game logic
touches: `boardRef`, `snakeRef`, `foodRef`, `directionRef`,
`pendingDirectionRef`, `status`, `score`, `highScore` (page.tsx:65-91). -/
structure GameState : Type where
  board : Board
  snake : List Point
  food : Point
  direction : Direction
  pendingDirection : Direction
  status : Status
  score : Nat
  highScore : Nat
deriving Repr

/-- `tick` (page.tsx:225-266) as a pure transformer.  Returns the new state
and `some` outcome; outcome `none` models the `TypeError` thrown at
`head.x` (page.tsx:235) when `snakeRef.current` is empty — note
`directionRef` has already been written (page.tsx:231) when that throw
happens, so the returned state carries the committed direction.
Score/high-score updates and the food respawn of the `hasEaten` branch
(page.tsx:256-263) are folded in; `draw()` is rendering and dropped. -/
def tick (rng : Nat → Point) (s : GameState) : GameState × Option TickOutcome :=
  if s.board.cols = 0 ∨ s.board.rows = 0 then (s, some .Noop)
  else
    let direction := s.pendingDirection
    let s1 : GameState := { s with direction := direction }
    match s.snake with
    | [] => (s1, none)
    | head :: _ =>
      let vector := directionVectors direction
      let next : Point := ⟨head.x + vector.x, head.y + vector.y⟩
      if next.x < 0 ∨ next.y < 0 ∨ (s.board.cols : Int) ≤ next.x ∨
          (s.board.rows : Int) ≤ next.y ∨ next ∈ s.snake then
        ({ s1 with status := .gameover }, some .Died)
      else
        let hasEaten := next = s.food
        let nextSnake :=
          if hasEaten then next :: s.snake else (next :: s.snake).dropLast
        if hasEaten then
          let nextScore := s1.score + 1
          ({ s1 with
              snake := nextSnake
              score := nextScore
              highScore := max s1.highScore nextScore
              food := spawnFood nextSnake s1.board rng }, some .Ate)
        else
          ({ s1 with snake := nextSnake }, some .Moved)

/-- The initial 3-segment snake built by `resetSnake` (page.tsx:172-179):
`startX = Math.floor(cols / 2)`, `startY = Math.floor(rows / 2)`, head at
`(startX, startY)` with the body extending toward negative `x`. -/
def startSnake (b : Board) : List Point :=
  [⟨((b.cols / 2 : Nat) : Int), ((b.rows / 2 : Nat) : Int)⟩,
   ⟨((b.cols / 2 : Nat) : Int) - 1, ((b.rows / 2 : Nat) : Int)⟩,
   ⟨((b.cols / 2 : Nat) : Int) - 2, ((b.rows / 2 : Nat) : Int)⟩]

/-- `resetSnake` (page.tsx:168-185): no-op while the board is unsized;
otherwise installs the centred 3-segment snake, resets both direction
refs to `right` and respawns food.  `draw()` is rendering and dropped. -/
def resetSnake (rng : Nat → Point) (s : GameState) : GameState :=
  if s.board.cols = 0 ∨ s.board.rows = 0 then s
  else
    { s with
        snake := startSnake s.board
        direction := .right
        pendingDirection := .right
        food := spawnFood (startSnake s.board) s.board rng }

/-- `startGame` (page.tsx:214-219). -/
def startGame (rng : Nat → Point) (s : GameState) : GameState :=
  if s.board.cols = 0 then s
  else { resetSnake rng { s with score := 0 } with status := .running }

/-- `endGame` (page.tsx:221-223). -/
def endGame (s : GameState) : GameState :=
  { s with status := .gameover }

/-- The direction branch of `handleKey` (page.tsx:308-314): the candidate
direction decoded from the key is dropped when it is the opposite of the
committed `directionRef.current`, else written to `pendingDirectionRef`. -/
def requestDirection (c : Direction) (s : GameState) : GameState :=
  if opposite s.direction = c then s
  else { s with pendingDirection := c }

/-- External events that reach the core: a timer firing (`setInterval(tick)`,
page.tsx:275), a start request (button / Enter / R, page.tsx:294-306) and a
direction key (page.tsx:308-314). -/
inductive Act : Type where
  | tickAct : (Nat → Point) → Act
  | startAct : (Nat → Point) → Act
  | requestAct : Direction → Act

/-- Whether the event is a start request. -/
def Act.isStart : Act → Bool
  | .startAct _ => true
  | _ => false

/-- System-level effect of one event.  The interval only exists while
`status == "running"` (page.tsx:272-277), so a timer firing in any other
status does nothing; key events run regardless of status. -/
def applyAct : Act → GameState → GameState
  | .tickAct rng, s => if s.status = .running then (tick rng s).1 else s
  | .startAct rng, s => startGame rng s
  | .requestAct d, s => requestDirection d s

/-- Effect of a sequence of events, first event first. -/
def applyActs (acts : List Act) (s : GameState) : GameState :=
  acts.foldl (fun t a => applyAct a t) s

/-- The target cell of a tick, `next = head + vector(direction)`
(page.tsx:233-235), written out for theorem statements. -/
def nextCell (d : Direction) (head : Point) : Point :=
  ⟨head.x + (directionVectors d).x, head.y + (directionVectors d).y⟩

/-- A concrete mid-game state (the §8 scenario of the spec: 12×12 board,
snake `[(6,6),(5,6),(4,6)]` heading right, food at `(7,6)`). -/
def demoState : GameState :=
  { board := ⟨12, 12⟩
    snake := [⟨6, 6⟩, ⟨5, 6⟩, ⟨4, 6⟩]
    food := ⟨7, 6⟩
    direction := .right
    pendingDirection := .right
    status := .running
    score := 0
    highScore := 0 }

/-- A concrete sample stream: every attempt draws `(3,3)`. -/
def demoRng : Nat → Point := fun _ => ⟨3, 3⟩

/-- A state one tick away from a wall collision: snake `[(0,6),(1,6),(2,6)]`
heading left, so the next head `(-1,6)` is off the board. -/
def diedDemo : GameState :=
  { demoState with
      snake := [⟨0, 6⟩, ⟨1, 6⟩, ⟨2, 6⟩]
      direction := .left
      pendingDirection := .left }

/-!  ## Helper lemmas  -/

/-- Characterisation of the rejection-sampling loop: either some attempt in
the window `[attempt, attempt+fuel)` draws a free cell and the loop returns
the first such draw, or every attempt in the window collides and the loop
returns the fallback `(0,0)`. -/
theorem spawnFoodGo_cases (occ : List Point) (rng : Nat → Point) :
    ∀ fuel attempt : Nat,
      (∃ j, attempt ≤ j ∧ j < attempt + fuel ∧
        spawnFoodGo occ rng attempt fuel = rng j ∧ rng j ∉ occ ∧
        ∀ i, attempt ≤ i → i < j → rng i ∈ occ) ∨
      ((∀ i, attempt ≤ i → i < attempt + fuel → rng i ∈ occ) ∧
        spawnFoodGo occ rng attempt fuel = ⟨0, 0⟩) := by
  intro fuel
  induction fuel with
  | zero =>
    intro attempt
    exact .inr ⟨fun i h1 h2 => absurd h2 (by omega), rfl⟩
  | succ n ih =>
    intro attempt
    by_cases hmem : rng attempt ∈ occ
    · rcases ih (attempt + 1) with ⟨j, hj1, hj2, hj3, hj4, hj5⟩ | ⟨hall, heq⟩
      · refine .inl ⟨j, by omega, by omega, ?_, hj4, ?_⟩
        · rw [spawnFoodGo, if_pos hmem]
          exact hj3
        · intro i hi1 hi2
          rcases Nat.eq_or_lt_of_le hi1 with rfl | hlt
          · exact hmem
          · exact hj5 i hlt hi2
      · refine .inr ⟨?_, ?_⟩
        · intro i hi1 hi2
          rcases Nat.eq_or_lt_of_le hi1 with rfl | hlt
          · exact hmem
          · exact hall i hlt (by omega)
        · rw [spawnFoodGo, if_pos hmem]
          exact heq
    · exact .inl ⟨attempt, le_refl _, by omega,
        by rw [spawnFoodGo, if_neg hmem], hmem,
        fun i h1 h2 => absurd h2 (by omega)⟩

/-- The five-way collision disjunction of page.tsx:237-242, rewritten
through `inBounds`. -/
theorem collide_iff (b : Board) (p : Point) (l : List Point) :
    (p.x < 0 ∨ p.y < 0 ∨ (b.cols : Int) ≤ p.x ∨ (b.rows : Int) ≤ p.y ∨
        p ∈ l) ↔
      (¬ inBounds b p ∨ p ∈ l) := by
  by_cases hm : p ∈ l
  · simp [hm]
  · simp only [hm, or_false]
    unfold inBounds
    omega

/-- One tick never lowers the high score. -/
theorem tick_highScore_mono (rng : Nat → Point) (s : GameState) :
    s.highScore ≤ (tick rng s).1.highScore := by
  obtain ⟨⟨cols, rows⟩, snake, food, dir, pd, st, sc, hsc⟩ := s
  cases snake with
  | nil =>
    simp only [tick]
    split_ifs <;> exact le_refl _
  | cons head rest =>
    simp only [tick]
    split_ifs
    · exact le_refl _
    · exact le_refl _
    · exact le_max_left _ _
    · exact le_refl _

/-- `startGame` never touches the high score. -/
theorem startGame_highScore (rng : Nat → Point) (s : GameState) :
    (startGame rng s).highScore = s.highScore := by
  rw [startGame]
  split_ifs with h
  · rfl
  · rw [resetSnake]
    split_ifs with h2
    · rfl
    · rfl

/-- No single event lowers the high score. -/
theorem applyAct_highScore_mono (a : Act) (s : GameState) :
    s.highScore ≤ (applyAct a s).highScore := by
  cases a with
  | tickAct rng =>
    rw [applyAct]
    split_ifs with h
    · exact tick_highScore_mono rng s
    · exact le_refl _
  | startAct rng =>
    rw [applyAct, startGame_highScore]
  | requestAct d =>
    rw [applyAct, requestDirection]
    split_ifs
    · exact le_refl _
    · exact le_refl _

/-- No sequence of events lowers the high score. -/
theorem applyActs_highScore_mono (acts : List Act) :
    ∀ s : GameState, s.highScore ≤ (applyActs acts s).highScore := by
  induction acts with
  | nil => exact fun s => le_refl _
  | cons a acts ih =>
    exact fun s =>
      le_trans (applyAct_highScore_mono a s) (ih (applyAct a s))

/-- Score/high-score effect of one tick: either the tick ate — score up by
one, high score raised to the max — or it did not and the score is
untouched. -/
theorem tick_score_cases (rng : Nat → Point) (s : GameState) :
    ((tick rng s).2 = some TickOutcome.Ate ∧
      (tick rng s).1.score = s.score + 1 ∧
      (tick rng s).1.highScore = max s.highScore (s.score + 1)) ∨
    ((tick rng s).2 ≠ some TickOutcome.Ate ∧
      (tick rng s).1.score = s.score) := by
  obtain ⟨⟨cols, rows⟩, snake, food, dir, pd, st, sc, hsc⟩ := s
  cases snake with
  | nil =>
    simp only [tick]
    split_ifs
    · exact .inr ⟨by simp, rfl⟩
    · exact .inr ⟨by simp, rfl⟩
  | cons head rest =>
    simp only [tick]
    split_ifs
    · exact .inr ⟨by simp, rfl⟩
    · exact .inr ⟨by simp, rfl⟩
    · exact .inl ⟨rfl, rfl, rfl⟩
    · exact .inr ⟨by simp, rfl⟩

/-- While `status = gameover` and no start request arrives, no event
changes the snake, the food, the score or the status: a timer firing is
gated out by the interval being cleared, and a direction key can only
write the pending direction. -/
theorem gameover_frozen (acts : List Act) :
    ∀ s : GameState, s.status = Status.gameover →
      (∀ a ∈ acts, a.isStart = false) →
      (applyActs acts s).snake = s.snake ∧
      (applyActs acts s).food = s.food ∧
      (applyActs acts s).score = s.score ∧
      (applyActs acts s).status = Status.gameover := by
  induction acts with
  | nil => exact fun s hs _ => ⟨rfl, rfl, rfl, hs⟩
  | cons a acts ih =>
    intro s hs hns
    have hna : a.isStart = false := hns a (List.mem_cons_self a acts)
    have hns2 : ∀ b ∈ acts, b.isStart = false :=
      fun b hb => hns b (List.mem_cons_of_mem a hb)
    have hstep : (applyAct a s).snake = s.snake ∧
        (applyAct a s).food = s.food ∧ (applyAct a s).score = s.score ∧
        (applyAct a s).status = Status.gameover := by
      cases a with
      | tickAct rng =>
        rw [applyAct, if_neg (by simp [hs])]
        exact ⟨rfl, rfl, rfl, hs⟩
      | startAct rng => simp [Act.isStart] at hna
      | requestAct d =>
        rw [applyAct, requestDirection]
        split_ifs
        · exact ⟨rfl, rfl, rfl, hs⟩
        · exact ⟨rfl, rfl, rfl, hs⟩
    obtain ⟨h1, h2, h3, h4⟩ := hstep
    refine ⟨?_, ?_, ?_, ?_⟩
    · exact ((ih (applyAct a s) h4 hns2).1).trans h1
    · exact ((ih (applyAct a s) h4 hns2).2.1).trans h2
    · exact ((ih (applyAct a s) h4 hns2).2.2.1).trans h3
    · exact (ih (applyAct a s) h4 hns2).2.2.2

/-!  ## Claim theorems  -/

/-- **C3.** For every current direction `d` and candidate `c`, requesting `c`
when `currentDirection = d` leaves `pendingDirection` unchanged (indeed the
whole state unchanged, so no side effect) if `c = opposite d`, and sets
`pendingDirection := c` otherwise; the rejection test consults only the
committed `directionRef`, never the queued pending direction. -/
theorem requestDirection_spec (c : Direction) (s : GameState) :
    (c = opposite s.direction → requestDirection c s = s) ∧
    (c ≠ opposite s.direction →
      requestDirection c s = { s with pendingDirection := c }) := by
  constructor
  · intro h
    rw [requestDirection, if_pos h.symm]
  · intro h
    rw [requestDirection, if_neg fun hh => h hh.symm]

/-- Witness for C3: with `currentDirection = right`, requesting `left` is a
no-op on the spec's §8 scenario state. -/
theorem requestDirection_spec_witness :
    requestDirection Direction.left demoState = demoState :=
  (requestDirection_spec Direction.left demoState).1 (by decide)

/-- Counterexample to **C4** as stated: on a 12×12 board with the snake
occupying only `(0,0)`, the cell `(1,1)` is free, every sample is in range,
yet when all 500 samples draw the occupied cell `(0,0)` the fallback
returns `(0,0)`, a member of the snake. -/
theorem spawnFood_disjoint_cex :
    inBounds ⟨12, 12⟩ ⟨0, 0⟩ ∧ inBounds ⟨12, 12⟩ ⟨1, 1⟩ ∧
    (⟨1, 1⟩ : Point) ∉ [(⟨0, 0⟩ : Point)] ∧
    spawnFood [⟨0, 0⟩] ⟨12, 12⟩ (fun _ => ⟨0, 0⟩) ∈ [(⟨0, 0⟩ : Point)] := by
  refine ⟨by decide, by decide, by decide, ?_⟩
  rcases spawnFoodGo_cases [(⟨0, 0⟩ : Point)] (fun _ => ⟨0, 0⟩) 500 0 with
    ⟨j, _, _, _, hfree, _⟩ | ⟨_, heq⟩
  · exact absurd (by decide) hfree
  · rw [spawnFood, heq]
    decide

/-- **C4** (amended).  For every snake, board and in-range sample stream in
which at least one of the 500 sampling attempts draws a cell free of the
snake, `spawnFood` returns a Point with `0 ≤ x < cols`, `0 ≤ y < rows` that
is not a member of the snake sequence. -/
theorem spawnFood_not_on_snake (snake : List Point) (board : Board)
    (rng : Nat → Point) (hrange : ∀ n, inBounds board (rng n))
    (hhit : ∃ i, i < 500 ∧ rng i ∉ snake) :
    inBounds board (spawnFood snake board rng) ∧
      spawnFood snake board rng ∉ snake := by
  rcases spawnFoodGo_cases snake rng 500 0 with
    ⟨j, _, _, heq, hfree, _⟩ | ⟨hall, _⟩
  · rw [spawnFood, heq]
    exact ⟨hrange j, hfree⟩
  · obtain ⟨i, hi1, hi2⟩ := hhit
    exact absurd (hall i (Nat.zero_le i) (by omega)) hi2

/-- Witness for C4 (amended): on the 12×12 board with snake `[(0,0)]` and
every sample drawing `(1,1)`, the spawned food is in bounds and off the
snake. -/
theorem spawnFood_not_on_snake_witness :
    inBounds ⟨12, 12⟩ (spawnFood [⟨0, 0⟩] ⟨12, 12⟩ (fun _ => ⟨1, 1⟩)) ∧
      spawnFood [⟨0, 0⟩] ⟨12, 12⟩ (fun _ => ⟨1, 1⟩) ∉ [(⟨0, 0⟩ : Point)] :=
  spawnFood_not_on_snake [⟨0, 0⟩] ⟨12, 12⟩ (fun _ => ⟨1, 1⟩)
    (fun _ => (by decide : inBounds ⟨12, 12⟩ ⟨1, 1⟩)) ⟨0, by decide, by decide⟩

/-- **C9.** `spawnFood` makes at most 500 sampling attempts over the grid and
returns the first sampled cell not occupied by the snake; if all 500
attempts hit occupied cells it returns `(0,0)` unconditionally — in
particular even when `(0,0)` is itself occupied by the snake. -/
theorem spawnFood_alg (snake : List Point) (board : Board)
    (rng : Nat → Point) :
    (∃ j, j < 500 ∧ spawnFood snake board rng = rng j ∧ rng j ∉ snake ∧
      ∀ i, i < j → rng i ∈ snake) ∨
    ((∀ i, i < 500 → rng i ∈ snake) ∧
      spawnFood snake board rng = ⟨0, 0⟩) := by
  rcases spawnFoodGo_cases snake rng 500 0 with
    ⟨j, _, hj2, heq, hfree, hfirst⟩ | ⟨hall, heq⟩
  · exact .inl ⟨j, by omega, by rw [spawnFood]; exact heq, hfree,
      fun i hi => hfirst i (Nat.zero_le i) hi⟩
  · exact .inr ⟨fun i hi => hall i (Nat.zero_le i) (by omega),
      by rw [spawnFood]; exact heq⟩

/-- **C1.** For every tick of a running game (sized board, non-empty snake),
the outcome is `Died` if and only if `next = head + vector(committed
direction)` lies outside `[0,cols)×[0,rows)` or equals some segment of the
snake body as it is before the move — the membership ranges over the whole
current body, tail cell included, so stepping into the tail of a snake of
length ≥ 2 is fatal even though that cell would be vacated on a
non-growth move. -/
theorem tick_died_iff (rng : Nat → Point) (s : GameState) (head : Point)
    (rest : List Point) (hcols : 0 < s.board.cols) (hrows : 0 < s.board.rows)
    (hsnake : s.snake = head :: rest) :
    ((tick rng s).2 = some TickOutcome.Died ↔
      ¬ inBounds s.board (nextCell s.pendingDirection head) ∨
        nextCell s.pendingDirection head ∈ s.snake) := by
  obtain ⟨⟨cols, rows⟩, snake, food, dir, pd, st, sc, hsc⟩ := s
  simp only at hcols hrows hsnake ⊢
  subst hsnake
  simp only [tick, nextCell]
  rw [if_neg (by omega : ¬(cols = 0 ∨ rows = 0))]
  split_ifs with h1 h2
  · exact iff_of_true rfl ((collide_iff ⟨cols, rows⟩ _ _).mp h1)
  · exact iff_of_false (by simp) fun hR => h1 ((collide_iff _ _ _).mpr hR)
  · exact iff_of_false (by simp) fun hR => h1 ((collide_iff _ _ _).mpr hR)

/-- Witness for C1: the spec's §8 wall scenario — snake `[(0,6),(1,6),(2,6)]`
heading left produces `next = (-1,6)` and the tick dies. -/
theorem tick_died_iff_witness :
    (tick demoRng diedDemo).2 = some TickOutcome.Died :=
  (tick_died_iff demoRng diedDemo ⟨0, 6⟩ [⟨1, 6⟩, ⟨2, 6⟩] (by decide)
    (by decide) rfl).mpr (by decide)

/-- **C2.** For every non-`Died` tick on a sized board and non-empty snake:
the new head is `old head + vector(committed pending direction)`; the
outcome is `Ate` iff the new head equals the food, in which case the snake
keeps its tail and grows by exactly one; otherwise the outcome is `Moved`,
the tail is removed and the length is unchanged. -/
theorem tick_move_spec (rng : Nat → Point) (s : GameState) (head : Point)
    (rest : List Point) (hcols : 0 < s.board.cols) (hrows : 0 < s.board.rows)
    (hsnake : s.snake = head :: rest)
    (hnd : (tick rng s).2 ≠ some TickOutcome.Died) :
    (tick rng s).1.snake.head? = some (nextCell s.pendingDirection head) ∧
    ((tick rng s).2 = some TickOutcome.Ate ↔
      nextCell s.pendingDirection head = s.food) ∧
    ((tick rng s).2 = some TickOutcome.Ate →
      (tick rng s).1.snake = nextCell s.pendingDirection head :: s.snake ∧
      (tick rng s).1.snake.length = s.snake.length + 1) ∧
    ((tick rng s).2 = some TickOutcome.Moved →
      (tick rng s).1.snake =
        nextCell s.pendingDirection head :: s.snake.dropLast ∧
      (tick rng s).1.snake.length = s.snake.length) := by
  obtain ⟨⟨cols, rows⟩, snake, food, dir, pd, st, sc, hsc⟩ := s
  simp only at hcols hrows hsnake hnd ⊢
  subst hsnake
  simp only [tick, nextCell] at hnd ⊢
  rw [if_neg (by omega : ¬(cols = 0 ∨ rows = 0))] at hnd ⊢
  split_ifs at hnd ⊢ with h1 h2
  · exact absurd rfl hnd
  · refine ⟨rfl, iff_of_true rfl h2, fun _ => ⟨rfl, rfl⟩, fun hmv => ?_⟩
    exact absurd hmv (by simp)
  · refine ⟨?_, iff_of_false (by simp) h2, fun hate => absurd hate (by simp),
      fun _ => ⟨?_, ?_⟩⟩
    · rw [List.dropLast_cons₂, List.head?_cons]
    · rw [List.dropLast_cons₂]
    · simp only [List.dropLast_cons₂, List.length_cons, List.length_dropLast]
      omega

/-- Witness for C2: the spec's §8 eating scenario — from the demo state the
tick eats the food at `(7,6)` and the snake grows to length 4. -/
theorem tick_move_spec_witness :
    (tick demoRng demoState).1.snake =
        nextCell demoState.pendingDirection ⟨6, 6⟩ :: demoState.snake ∧
      (tick demoRng demoState).1.snake.length =
        demoState.snake.length + 1 :=
  (tick_move_spec demoRng demoState ⟨6, 6⟩ [⟨5, 6⟩, ⟨4, 6⟩] (by decide)
    (by decide) rfl (by decide)).2.2.1 (by decide)

/-- **C5.** `tick`, `requestDirection` and `spawnFood` are total on the
stated domains: with the spec's length ≥ 1 Snake invariant a tick always
yields a defined outcome — never the modelled exception — and an unsized
board is handled by the no-op early return; a direction request either
leaves the state untouched or just writes the pending direction; and
`spawnFood` always returns a value, falling back to `(0,0)` rather than
failing. -/
theorem core_no_throw (rng : Nat → Point) (s : GameState) (c : Direction)
    (snakeL : List Point) (board : Board) (hsnake : s.snake ≠ []) :
    (∃ out : TickOutcome, (tick rng s).2 = some out) ∧
    (s.board.cols = 0 ∨ s.board.rows = 0 →
      tick rng s = (s, some TickOutcome.Noop)) ∧
    (requestDirection c s = s ∨
      requestDirection c s = { s with pendingDirection := c }) ∧
    (spawnFood snakeL board rng = ⟨0, 0⟩ ∨
      ∃ j, j < 500 ∧ spawnFood snakeL board rng = rng j) := by
  refine ⟨?_, ?_, ?_, ?_⟩
  · obtain ⟨⟨cols, rows⟩, snake, food, dir, pd, st, sc, hsc⟩ := s
    simp only at hsnake ⊢
    cases snake with
    | nil => exact absurd rfl hsnake
    | cons head rest =>
      simp only [tick]
      split_ifs <;> exact ⟨_, rfl⟩
  · intro h0
    rw [tick, if_pos h0]
  · rw [requestDirection]
    split_ifs
    · exact .inl rfl
    · exact .inr rfl
  · rcases spawnFoodGo_cases snakeL rng 500 0 with
      ⟨j, _, hj2, heq, _, _⟩ | ⟨_, heq⟩
    · exact .inr ⟨j, by omega, by rw [spawnFood]; exact heq⟩
    · exact .inl (by rw [spawnFood]; exact heq)

/-- Witness for C5: from the demo state the tick yields a defined
outcome. -/
theorem core_no_throw_witness :
    ∃ out : TickOutcome, (tick demoRng demoState).2 = some out :=
  (core_no_throw demoRng demoState Direction.up [] ⟨12, 12⟩ (by decide)).1

/-- **C6.** `startGame` is a silent no-op while the board is unsized
(`cols = 0`); on a sized board it zeroes the score, reinstalls the
3-segment snake `[(⌊cols/2⌋, ⌊rows/2⌋), (⌊cols/2⌋-1, ⌊rows/2⌋),
(⌊cols/2⌋-2, ⌊rows/2⌋)]` (head first, body toward negative x), resets the
committed and pending directions to `right`, spawns food through
`spawnFood`, and sets the status to `running`. -/
theorem startGame_spec (rng : Nat → Point) (s : GameState) :
    (s.board.cols = 0 → startGame rng s = s) ∧
    (0 < s.board.cols → 0 < s.board.rows →
      startGame rng s =
        { s with
            score := 0
            snake := startSnake s.board
            direction := Direction.right
            pendingDirection := Direction.right
            food := spawnFood (startSnake s.board) s.board rng
            status := Status.running }) := by
  constructor
  · intro h
    rw [startGame, if_pos h]
  · intro hc hr
    obtain ⟨⟨cols, rows⟩, snake, food, dir, pd, st, sc, hsc⟩ := s
    simp only at hc hr ⊢
    simp only [startGame, resetSnake, startSnake]
    split_ifs with h1 h2
    · exact absurd h1 (by omega)
    · exact absurd h2 (by omega)
    · rfl

/-- Witness for C6: starting over from a finished 12×12 demo game rebuilds
exactly the centred snake, directions, food, score and running status. -/
theorem startGame_spec_witness :
    startGame demoRng { demoState with score := 7, status := Status.gameover } =
      { demoState with
          score := 0
          snake := startSnake demoState.board
          direction := Direction.right
          pendingDirection := Direction.right
          food := spawnFood (startSnake demoState.board) demoState.board demoRng
          status := Status.running } := by
  have h := (startGame_spec demoRng
    { demoState with score := 7, status := Status.gameover }).2 (by decide) (by decide)
  exact h

/-- **C10.** On every tick with a sized board — including a fatal one —
the committed direction is overwritten with the pending direction before
the collision check runs, so after a `Died` tick `directionRef` holds the
pending direction that caused the death while the snake, food and score
are untouched. -/
theorem tick_commits_pending (rng : Nat → Point) (s : GameState)
    (hcols : 0 < s.board.cols) (hrows : 0 < s.board.rows) :
    (tick rng s).1.direction = s.pendingDirection ∧
    ((tick rng s).2 = some TickOutcome.Died →
      (tick rng s).1.snake = s.snake ∧ (tick rng s).1.food = s.food ∧
      (tick rng s).1.score = s.score) := by
  obtain ⟨⟨cols, rows⟩, snake, food, dir, pd, st, sc, hsc⟩ := s
  simp only at hcols hrows ⊢
  cases snake with
  | nil =>
    simp only [tick]
    rw [if_neg (by omega : ¬(cols = 0 ∨ rows = 0))]
    exact ⟨rfl, fun h => by simp at h⟩
  | cons head rest =>
    simp only [tick]
    rw [if_neg (by omega : ¬(cols = 0 ∨ rows = 0))]
    split_ifs with h1 h2
    · exact ⟨rfl, fun _ => ⟨rfl, rfl, rfl⟩⟩
    · exact ⟨rfl, fun h => by simp at h⟩
    · exact ⟨rfl, fun h => by simp at h⟩

/-- Witness for C10: a tick from the demo state with pending `up` commits
`up` into the current direction. -/
theorem tick_commits_pending_witness :
    (tick demoRng
        { demoState with pendingDirection := Direction.up }).1.direction =
      Direction.up :=
  (tick_commits_pending demoRng
    { demoState with pendingDirection := Direction.up }
    (by decide) (by decide)).1

/-- **C7.** Across every sequence of timer, start and key events the high
score is monotonically non-decreasing; `startGame` on a sized board resets
the score to 0; an `Ate` tick adds exactly 1 to the score and raises the
high score to `max(highScore, score+1)`; every non-`Ate` tick (`Moved`,
`Died`, the no-op, the modelled exception) leaves the score unchanged — in
particular a tick can zero the score only if it was already zero, so only
`startGame` resets it. -/
theorem score_highScore_spec (s : GameState) (acts : List Act)
    (rng : Nat → Point) :
    s.highScore ≤ (applyActs acts s).highScore ∧
    (0 < s.board.cols → (startGame rng s).score = 0) ∧
    ((tick rng s).2 = some TickOutcome.Ate →
      (tick rng s).1.score = s.score + 1 ∧
      (tick rng s).1.highScore = max s.highScore (s.score + 1)) ∧
    ((tick rng s).2 ≠ some TickOutcome.Ate →
      (tick rng s).1.score = s.score) ∧
    ((tick rng s).1.score = 0 → s.score = 0) := by
  refine ⟨applyActs_highScore_mono acts s, ?_, ?_, ?_, ?_⟩
  · intro hc
    rw [startGame, if_neg (by omega : ¬s.board.cols = 0), resetSnake]
    split_ifs
    · rfl
    · rfl
  · intro h
    rcases tick_score_cases rng s with ⟨_, h2, h3⟩ | ⟨hne, _⟩
    · exact ⟨h2, h3⟩
    · exact absurd h hne
  · intro h
    rcases tick_score_cases rng s with ⟨hate, _, _⟩ | ⟨_, h2⟩
    · exact absurd hate h
    · exact h2
  · intro h0
    rcases tick_score_cases rng s with ⟨_, h2, _⟩ | ⟨_, h2⟩
    · omega
    · omega

/-- Witness for C7: the demo tick eats and the score rises from 0 to 1. -/
theorem score_highScore_spec_witness :
    (tick demoRng demoState).1.score = demoState.score + 1 :=
  ((score_highScore_spec demoState [] demoRng).2.2.1 (by decide)).1

/-- **C8.** A `Died` tick changes only the status (to `gameover`) and the
committed direction: the score, snake body and food point survive that
tick unchanged, and stay frozen under any further events that contain no
start request. -/
theorem died_tick_frame (rng : Nat → Point) (s : GameState) (acts : List Act)
    (hdied : (tick rng s).2 = some TickOutcome.Died)
    (hns : ∀ a ∈ acts, a.isStart = false) :
    (tick rng s).1 =
      { s with
          direction := s.pendingDirection
          status := Status.gameover } ∧
    (applyActs acts (tick rng s).1).snake = s.snake ∧
    (applyActs acts (tick rng s).1).food = s.food ∧
    (applyActs acts (tick rng s).1).score = s.score ∧
    (applyActs acts (tick rng s).1).status = Status.gameover := by
  have hstate : (tick rng s).1 =
      { s with
          direction := s.pendingDirection
          status := Status.gameover } := by
    obtain ⟨⟨cols, rows⟩, snake, food, dir, pd, st, sc, hsc⟩ := s
    simp only at hdied ⊢
    cases snake with
    | nil =>
      simp only [tick] at hdied
      split_ifs at hdied
      simp at hdied
    | cons head rest =>
      simp only [tick] at hdied ⊢
      split_ifs at hdied ⊢
      · simp at hdied
      · rfl
      · simp at hdied
      · simp at hdied
  have hst2 : (tick rng s).1.status = Status.gameover := by
    rw [hstate]
  have hfr := gameover_frozen acts (tick rng s).1 hst2 hns
  refine ⟨hstate, ?_, ?_, ?_, hfr.2.2.2⟩
  · rw [hfr.1, hstate]
  · rw [hfr.2.1, hstate]
  · rw [hfr.2.2.1, hstate]

/-- Witness for C8: after the demo wall death, a direction key and a timer
firing leave the snake exactly as it was at death. -/
theorem died_tick_frame_witness :
    (applyActs [Act.requestAct Direction.up, Act.tickAct demoRng]
        (tick demoRng diedDemo).1).snake = diedDemo.snake :=
  (died_tick_frame demoRng diedDemo
    [Act.requestAct Direction.up, Act.tickAct demoRng]
    (by decide) (by intro a ha; fin_cases ha <;> rfl)).2.1

end SnakeGame
